import Mathlib

set_option linter.unusedVariables false

/-!
# The CASSANDRA-13592 recreation harness

A shallow embedding of `recreation.go` and `connection.go`, and theorems about
the paginated `scan`, the readiness probe `waitForConnection`, the orchestration
of `main`, `performRecreation`, `destroyDockerContainer` and `getCluster`.

The database driver (gocql), the container client and `strconv.Atoi` are not part
of the repository.  They enter the development as parameters (a `Session`, a
`DockerClient`, an `Atoi` function); where a concrete driver is needed, the
`pagedSession` below serves a table page by page the way the driver does.
-/

namespace Recreation

/-! ## Data model -/

/-- Contents of a Go byte slice; a slice that may be nil is an `Option Bytes`. -/
abbrev Bytes := List Nat

/-- The `user` struct of `recreation.go`. -/
structure user where
  FirstName : String
  LastName : String
  Age : Int
deriving DecidableEq, Repr

/-- A Go `error` value: the text `Error()` returns, and a tag that tells apart
distinct error values carrying the same text. -/
structure GoError where
  msg : String
  tag : Nat
deriving DecidableEq, Repr

/-- The method `Error()` of a Go error. -/
def GoError.Error (e : GoError) : String := e.msg

/-- A value bound to a statement placeholder. -/
inductive Value where
  | text (s : String)
  | int (n : Int)
deriving DecidableEq, Repr

/-- The part of a driver query the harness touches: statement text, bound
values, fetch size and paging state. -/
structure Query where
  stmt : String
  values : List Value
  pageSize : Int
  pageState : Option Bytes
deriving DecidableEq, Repr

/-- Fetch size a session gives a new query (the driver's cluster default). -/
def defaultPageSize : Int := 5000

/-- `Session.Query(stmt, values...)`: a new query with the session defaults. -/
def Query.new (stmt : String) (values : List Value) : Query :=
  { stmt := stmt, values := values, pageSize := defaultPageSize, pageState := none }

/-- `Query.PageSize(n)`: the driver fetches the result in pages of `n` rows. -/
def Query.PageSize (q : Query) (n : Int) : Query := { q with pageSize := n }

/-- `Query.PageState(state)`: the result starts at the given paging state. -/
def Query.PageState (q : Query) (state : Bytes) : Query := { q with pageState := some state }

/-- The driver's result iterator (`gocql.Iter`).  The server answers a query
one page of at most `pageSize` rows at a time and sends with each page the
paging state from which the following page can be asked for; the iterator
holds one such page:
`failed` is an iterator whose fetch failed (`err` set, no rows, no paging state);
`last` is a page the server sent without a paging state, so nothing follows it;
`more` is a page sent with a paging state, together with the iterator that the
automatic fetch of the following page produces.  The `rows` are those of the
page not yet consumed.  Decoding a row into `*string, *string, *int` cannot
fail for the table's columns `text, text, int`, so a page has no error. -/
inductive Iter where
  | failed (err : GoError)
  | last (rows : List user)
  | more (rows : List user) (pagingState : Bytes) (next : Iter)
deriving Repr

/-- `Iter.Scan(dest...)`: the next row, if any, and the iterator afterwards.
When the current page is consumed and a following page exists, the iterator
becomes the fetched following page and the scan continues there. -/
def Iter.Scan : Iter → Option user × Iter
  | .failed err => (none, .failed err)
  | .last [] => (none, .last [])
  | .last (r :: rs) => (some r, .last rs)
  | .more (r :: rs) ps nx => (some r, .more rs ps nx)
  | .more [] _ nx => nx.Scan

/-- `Iter.PageState()`: the paging state of the page the iterator holds, that
is, where the following page starts, however many rows of the page have been
scanned. -/
def Iter.PageState : Iter → Option Bytes
  | .failed _ => none
  | .last _ => none
  | .more _ ps _ => some ps

/-- `Iter.Close()`: the error of the iterator, if any. -/
def Iter.Close : Iter → Option GoError
  | .failed err => some err
  | .last _ => none
  | .more _ _ _ => none

/-- Rows and pending fetches left in an iterator; every successful `Scan`
lowers it. -/
def Iter.size : Iter → Nat
  | .failed _ => 0
  | .last rows => rows.length
  | .more rows _ nx => rows.length + 1 + nx.size

/-- All rows the iterator yields when scanned to its end, in order. -/
def Iter.allRows : Iter → List user
  | .failed _ => []
  | .last rows => rows
  | .more rows _ nx => rows ++ nx.allRows

/-- The iterator after `k` calls of `Scan`. -/
def Iter.advance : Nat → Iter → Iter
  | 0, it => it
  | k + 1, it => Iter.advance k it.Scan.2

/-- A byte slice is empty when it is nil or has length zero. -/
def tokenEmpty (t : Option Bytes) : Bool :=
  match t with
  | none => true
  | some b => b.isEmpty

/-- The database session behind the global `conn`, over a state of type `σ`:
executing a statement, and opening a result iterator for a query. -/
structure Session (σ : Type) where
  QueryExec : σ → Query → σ × Option GoError
  QueryIter : σ → Query → σ × Iter

/-- The loop of `scan`: append each scanned row, and leave the loop once a
positive `pageSize` is reached.  Returns the rows and the iterator as the loop
leaves it. -/
def scanLoop (pageSize : Int) (iter : Iter) (users : List user) : List user × Iter :=
  match h : iter.Scan with
  | (none, iter') => (users, iter')
  | (some u, iter') =>
    let users := users ++ [u]
    if pageSize > 0 ∧ (users.length : Int) ≥ pageSize then (users, iter')
    else scanLoop pageSize iter' users
termination_by iter.size
decreasing_by
  have key : ∀ (it it' : Iter) (u : user), it.Scan = (some u, it') → it'.size < it.size := by
    intro it
    induction it with
    | failed e => intro it' u h; simp [Iter.Scan] at h
    | last rows =>
      intro it' u h
      cases rows with
      | nil => simp [Iter.Scan] at h
      | cons r rs =>
        simp only [Iter.Scan, Prod.mk.injEq] at h
        rw [← h.2]; simp [Iter.size]
    | more rows ps nx ih =>
      intro it' u h
      cases rows with
      | nil =>
        simp only [Iter.Scan] at h
        have := ih it' u h
        simp only [Iter.size]; omega
      | cons r rs =>
        simp only [Iter.Scan, Prod.mk.injEq] at h
        rw [← h.2]; simp [Iter.size]
  exact key iter iter' u h

/-- The query `scan` builds (lines 224 to 233 of `recreation.go`): the fixed
statement, fetch size 10 when `pageSize > 0`, and the paging state when it is
not nil. -/
def scanQuery (table : String) (pageSize : Int) (pageState : Option Bytes) : Query :=
  let query := Query.new "SELECT first_name, last_name, age FROM users" []
  let query := if pageSize > 0 then query.PageSize 10 else query
  let query := match pageState with
    | some state => query.PageState state
    | none => query
  query

/-- The function `scan` of `recreation.go`.  The result is the triple
`(users, next, err)` and the session state after the query. -/
def scan {σ : Type} (sess : Session σ) (s : σ) (table : String) (pageSize : Int)
    (pageState : Option Bytes) : (List user × Option Bytes × Option GoError) × σ :=
  let query := scanQuery table pageSize pageState
  let (s', iter) := sess.QueryIter s query
  let (users, iter) := scanLoop pageSize iter []
  let next := iter.PageState
  let err := iter.Close
  ((users, next, err), s')


/-- The rows the driver's iterator yields for the query of a call of `scan`. -/
def scanRows {σ : Type} (sess : Session σ) (s : σ) (table : String) (pageSize : Int)
    (pageState : Option Bytes) : List user :=
  (sess.QueryIter s (scanQuery table pageSize pageState)).2.allRows

/-! ## A driver that serves a table page by page -/

/-- Paging state that marks the position `off` in the table. -/
def encodeOffset (off : Nat) : Bytes := [off]

/-- The position a paging state marks; nil and the empty state mark the start. -/
def decodeOffset : Option Bytes → Option Nat
  | none => some 0
  | some [] => some 0
  | some [off] => some off
  | some _ => none

/-- The pages of `rows` in fetches of `p` rows, starting at position `off`.  A
page carries a paging state exactly when rows remain after it. -/
def fetchPages (p : Nat) : Nat → Nat → List user → Iter
  | 0, _, rows => .last rows
  | fuel + 1, off, rows =>
    if p = 0 ∨ rows.length ≤ p then .last rows
    else .more (rows.take p) (encodeOffset (off + p))
      (fetchPages p fuel (off + p) (rows.drop p))

/-- Insert a row, or replace the row with the same `(first_name, last_name)`. -/
def upsert (tbl : List user) (u : user) : List user :=
  if tbl.any (fun r => r.FirstName == u.FirstName && r.LastName == u.LastName) then
    tbl.map (fun r => if r.FirstName == u.FirstName && r.LastName == u.LastName then u else r)
  else tbl ++ [u]

/-- A session over a table held as the list of its rows in the order the server
returns them.  A statement with three bound values inserts a row; a query is
answered in pages of the query's fetch size, from the position its paging
state marks, and each page's paging state marks the end of that page.  A page
carries a paging state only when rows remain after it. -/
def pagedSession : Session (List user) where
  QueryExec := fun tbl q =>
    match q.values with
    | [.text f, .text l, .int a] => (upsert tbl ⟨f, l, a⟩, none)
    | _ => (tbl, none)
  QueryIter := fun tbl q =>
    match decodeOffset q.pageState with
    | none => (tbl, .failed ⟨"invalid paging state", 0⟩)
    | some off => (tbl, fetchPages q.pageSize.toNat tbl.length off (tbl.drop off))

/-! ## The readiness probe -/

/-- Consistency levels of the driver. -/
inductive ConsistencyLevel where
  | Any | One | Two | Three | Quorum | All | LocalQuorum | EachQuorum | LocalOne
deriving DecidableEq, Repr

/-- The driver's `PasswordAuthenticator`. -/
structure PasswordAuthenticator where
  Username : String
  Password : String
deriving DecidableEq, Repr

/-- The driver's `SslOptions`, as far as `getCluster` sets them. -/
structure SslOptions where
  CaPath : String
  CertPath : String
  KeyPath : String
  EnableHostVerification : Bool
deriving DecidableEq, Repr

/-- The driver's `ClusterConfig`, as far as the harness sets it.  `Timeout` is
in milliseconds; nil pointers and interfaces are `none`. -/
structure ClusterConfig where
  Hosts : List String
  Timeout : Nat
  Consistency : ConsistencyLevel
  Keyspace : String
  Port : Int
  Authenticator : Option PasswordAuthenticator
  SslOpts : Option SslOptions
deriving DecidableEq, Repr

/-- The driver's `NewCluster(hosts...)`: its defaults, without transport
security. -/
def NewCluster (hosts : List String) : ClusterConfig :=
  { Hosts := hosts, Timeout := 600, Consistency := .Quorum, Keyspace := "",
    Port := 9042, Authenticator := none, SslOpts := none }

/-- The type of `strconv.Atoi`: a value and an error. -/
abbrev AtoiFn := String → Int × Option GoError

/-- The loop state of `waitForConnection`: the counter `iter` and the number
of sessions it has tried to create. -/
structure WaitState where
  iter : Int
  attempts : Nat
deriving DecidableEq, Repr

/-- The cluster `waitForConnection` builds for each attempt. -/
def waitCluster (Atoi : AtoiFn) (host port : String) : ClusterConfig :=
  let c := NewCluster [host]
  let c := { c with Timeout := 6 * 1000 }
  let c := { c with Consistency := .Quorum }
  let c := { c with Keyspace := "system" }
  let c := { c with Port := (Atoi port).1 }
  c

/-- The `for iter < timeout` loop of `waitForConnection`, run for at most
`fuel` passes; `none` when the loop is still running after them.
`CreateSession c k` is the error of the attempt number `k` (`none` for a
session).  No statement of the loop body assigns `iter`. -/
def waitForConnectionLoop (Atoi : AtoiFn) (CreateSession : ClusterConfig → Nat → Option GoError)
    (host port : String) (timeout : Int) : Nat → WaitState → Option WaitState
  | 0, _ => none
  | fuel + 1, st =>
    if st.iter < timeout then
      let c := waitCluster Atoi host port
      match CreateSession c st.attempts with
      | none => some { st with attempts := st.attempts + 1 }
      | some _ =>
        waitForConnectionLoop Atoi CreateSession host port timeout fuel
          { st with attempts := st.attempts + 1 }
    else some st

/-- The error `waitForConnection` creates on a timeout. -/
def timeoutError : GoError := ⟨"timeout while waiting for the DB", 0⟩

/-- The function `waitForConnection` of `recreation.go` with at most `fuel`
passes of its loop: `none` when it has not returned by then, else the error
it returns and the number of connection attempts it made. -/
def waitForConnection (Atoi : AtoiFn) (CreateSession : ClusterConfig → Nat → Option GoError)
    (host port : String) (timeout : Int) (fuel : Nat) : Option (Option GoError × Nat) :=
  match waitForConnectionLoop Atoi CreateSession host port timeout fuel ⟨0, 0⟩ with
  | none => none
  | some st =>
    if st.iter ≥ timeout then some (some timeoutError, st.attempts)
    else some (none, st.attempts)

/-! ## The reproduction sequence -/

/-- The seeded first names. -/
def names : List String :=
  ["bill", "mary", "bob", "june", "peter", "sally",
   "rich", "patty", "henry", "nancy", "george", "allie"]

/-- The insert statement of `performRecreation` for one name; `r` is the value
`rand.Intn(30)` returned. -/
def insertQuery (name : String) (r : Int) : Query :=
  Query.new "INSERT INTO users (first_name, last_name, age) VALUES (?, ?, ?)"
    [.text name, .text "smith", .int (r + 20)]

/-- The seeding loop of `performRecreation` over the names left, `i` being the
index of the next call of `rand.Intn`: it stops at the first insert that fails
and returns its error. -/
def seed {σ : Type} (sess : Session σ) (rnd : Nat → Int) : List String → Nat → σ → Option GoError × σ
  | [], _, s => (none, s)
  | name :: rest, i, s =>
    match sess.QueryExec s (insertQuery name (rnd i)) with
    | (s, some err) => (some err, s)
    | (s, none) => seed sess rnd rest (i + 1) s

/-- The function `performRecreation` of `recreation.go`: the error it returns
and the session state it leaves.  `rnd i` is the value of the call number `i`
of `rand.Intn(30)`. -/
def performRecreation {σ : Type} (sess : Session σ) (rnd : Nat → Int) (s : σ) :
    Option GoError × σ :=
  match seed sess rnd names 0 s with
  | (some err, s) => (some err, s)
  | (none, s) =>
    match scan sess s "users" 0 none with
    | ((_, _, some err), s) => (some err, s)
    | ((_, _, none), s) =>
      match scan sess s "users" 1 none with
      | ((_, _, some err), s) => (some err, s)
      | ((_, next, none), s) =>
        match scan sess s "users" 0 none with
        | (_, s) =>
          match scan sess s "users" 5 next with
          | ((_, _, some err), s) =>
            if err.Error = "java.lang.NullPointerException" then (none, s)
            else (some err, s)
          | ((_, _, none), s) => (none, s)

/-! ## Orchestration -/

/-- What `main` does, in order: the calls it makes and the messages it prints. -/
inductive Step where
  | getConfig
  | getPort
  | startCassandraDocker
  | waitForConnection
  | setupDB
  | performRecreation
  | tearDown
  | Printf (format : String) (err : GoError)
deriving DecidableEq, Repr

/-- The error each step of `main` returns (`none` for success).  The error of
`tearDown` is there for completeness: `main` discards it. -/
structure Outcomes where
  getConfig : Option GoError
  startCassandraDocker : Option GoError
  waitForConnection : Option GoError
  setupDB : Option GoError
  performRecreation : Option GoError
  tearDown : Option GoError
deriving DecidableEq, Repr

/-- The function `main` of `recreation.go` as the sequence of steps it performs
before it returns, given the outcome of each step. -/
def main (o : Outcomes) : List Step :=
  let t := [Step.getConfig]
  match o.getConfig with
  | some err => t ++ [.Printf "Error getting config values: %v\n" err]
  | none =>
    let t := t ++ [.getPort]
    let t := t ++ [.startCassandraDocker]
    match o.startCassandraDocker with
    | some err => t ++ [.Printf "Error starting container: %v\n" err, .tearDown]
    | none =>
      let t := t ++ [.waitForConnection]
      match o.waitForConnection with
      | some err => t ++ [.Printf "Error waiting for connection: %v\n" err, .tearDown]
      | none =>
        let t := t ++ [.setupDB]
        match o.setupDB with
        | some err => t ++ [.Printf "Error setting up the DB: %v\n" err, .tearDown]
        | none =>
          let t := t ++ [.performRecreation]
          match o.performRecreation with
          | some err => t ++ [.Printf "Error performing recreation: %v\n" err, .tearDown]
          | none => t ++ [.tearDown]

/-! ## Container teardown -/

/-- The container client's `RemoveContainerOptions`. -/
structure RemoveContainerOptions where
  ID : String
  RemoveVolumes : Bool
  Force : Bool
deriving DecidableEq, Repr

/-- A request sent to the container runtime. -/
inductive DockerCall where
  | StopContainer (id : String) (timeout : Nat)
  | RemoveContainer (opts : RemoveContainerOptions)
deriving DecidableEq, Repr

/-- The container client over a runtime state of type `δ`. -/
structure DockerClient (δ : Type) where
  StopContainer : δ → String → Nat → δ × Option GoError
  RemoveContainer : δ → RemoveContainerOptions → δ × Option GoError

/-- The function `destroyDockerContainer` of `recreation.go`: the requests it
sends in order, the error it returns, and the runtime state afterwards. -/
def destroyDockerContainer {δ : Type} (client : DockerClient δ) (d : δ) (containerID : String) :
    (List DockerCall × Option GoError) × δ :=
  let calls : List DockerCall := []
  let (d, err) := client.StopContainer d containerID 30
  let calls := calls ++ [DockerCall.StopContainer containerID 30]
  let opts : RemoveContainerOptions := { ID := containerID, RemoveVolumes := true, Force := true }
  let (d, err) := client.RemoveContainer d opts
  let calls := calls ++ [DockerCall.RemoveContainer opts]
  ((calls, err), d)

/-- A runtime holding the ids of the containers that exist and of those that
run: stopping a container that does not run fails, removing one that does not
exist fails. -/
def simpleDocker : DockerClient (List String × List String) where
  StopContainer := fun d id _ =>
    if id ∈ d.2 then ((d.1, d.2.erase id), none)
    else (d, some ⟨"Container not running: " ++ id, 1⟩)
  RemoveContainer := fun d opts =>
    if opts.ID ∈ d.1 then ((d.1.erase opts.ID, d.2.erase opts.ID), none)
    else (d, some ⟨"No such container: " ++ opts.ID, 2⟩)

/-! ## Connection construction -/

/-- The struct `CassandraConnection` of `connection.go`, without the two
pointers `Session` and `Cluster`, which `getCluster` does not read. -/
structure CassandraConnection where
  User : String
  Password : String
  Hosts : List String
  Port : String
  DBName : String
  Keyspace : String
  Ca : String
  Cert : String
  Key : String
  Timeout : Int
deriving DecidableEq, Repr

/-- The method `getCluster` of `connection.go`. -/
def CassandraConnection.getCluster (Atoi : AtoiFn) (cc : CassandraConnection)
    (keyspace : String) : ClusterConfig :=
  let c := NewCluster cc.Hosts
  let c := { c with Timeout := 60 * 1000 }
  let c := { c with Consistency := .Quorum }
  let c := { c with Keyspace := keyspace }
  let c := { c with Port := (Atoi cc.Port).1 }
  let c := { c with Authenticator := some { Username := cc.User, Password := cc.Password } }
  let c := if cc.Ca ≠ "" ∧ cc.Cert ≠ "" ∧ cc.Key ≠ "" then
      { c with SslOpts := some { CaPath := cc.Ca, CertPath := cc.Cert, KeyPath := cc.Key,
                                 EnableHostVerification := false } }
    else c
  c

/-- An `Atoi` for strings of decimal digits: the number, and for every other
string 0 with a syntax error. -/
def digitsAtoi : AtoiFn := fun s =>
  if s.data ≠ [] ∧ s.data.all Char.isDigit = true then
    (s.data.foldl (fun n c => 10 * n + ((c.toNat : Int) - 48)) 0, none)
  else (0, some ⟨"strconv.Atoi: parsing " ++ s ++ ": invalid syntax", 3⟩)

/-- The table after `performRecreation` has seeded it through `pagedSession`,
with `rand.Intn(30)` returning 0, 1, 2, ...: the twelve names in the order
inserted, last name smith, ages 20 to 31. -/
def seededUsers : List user := (seed pagedSession (fun i => (i : Int)) names 0 []).2

/-- A session over `pagedSession` that counts the queries opened and fails the
query number `k` (counting from 0) with the error `e`. -/
def scriptedSession (k : Nat) (e : GoError) : Session (List user × Nat) where
  QueryExec := fun st q => (((pagedSession.QueryExec st.1 q).1, st.2), (pagedSession.QueryExec st.1 q).2)
  QueryIter := fun st q =>
    if st.2 = k then ((st.1, st.2 + 1), .failed e)
    else ((st.1, st.2 + 1), (pagedSession.QueryIter st.1 q).2)

/-- The error the server's defect surfaces as. -/
def nullPointerError : GoError := ⟨"java.lang.NullPointerException", 5⟩

/-! ## Facts about the iterator and the loop -/

theorem Iter.Scan_size_lt (it : Iter) (u : user) (it' : Iter)
    (h : it.Scan = (some u, it')) : it'.size < it.size := by
  induction it with
  | failed e => simp [Iter.Scan] at h
  | last rows =>
    cases rows with
    | nil => simp [Iter.Scan] at h
    | cons r rs =>
      simp only [Iter.Scan, Prod.mk.injEq] at h
      rw [← h.2]; simp [Iter.size]
  | more rows ps nx ih =>
    cases rows with
    | nil =>
      simp only [Iter.Scan] at h
      have := ih h
      simp only [Iter.size]; omega
    | cons r rs =>
      simp only [Iter.Scan, Prod.mk.injEq] at h
      rw [← h.2]; simp [Iter.size]

theorem Iter.Scan_none (it it' : Iter) (h : it.Scan = (none, it')) :
    it.allRows = [] ∧ it'.PageState = none ∧ it'.allRows = [] ∧ it'.Scan = (none, it') := by
  induction it with
  | failed e =>
    simp only [Iter.Scan, Prod.mk.injEq, true_and] at h
    subst h; simp [Iter.allRows, Iter.PageState, Iter.Scan]
  | last rows =>
    cases rows with
    | nil =>
      simp only [Iter.Scan, Prod.mk.injEq, true_and] at h
      subst h; simp [Iter.allRows, Iter.PageState, Iter.Scan]
    | cons r rs => simp [Iter.Scan] at h
  | more rows ps nx ih =>
    cases rows with
    | nil =>
      simp only [Iter.Scan] at h
      have := ih h
      simp [Iter.allRows, this]
    | cons r rs => simp [Iter.Scan] at h

theorem Iter.Scan_some (it it' : Iter) (u : user) (h : it.Scan = (some u, it')) :
    it.allRows = u :: it'.allRows := by
  induction it with
  | failed e => simp [Iter.Scan] at h
  | last rows =>
    cases rows with
    | nil => simp [Iter.Scan] at h
    | cons r rs =>
      simp only [Iter.Scan, Prod.mk.injEq, Option.some.injEq] at h
      obtain ⟨h1, h2⟩ := h
      subst h1; subst h2; simp [Iter.allRows]
  | more rows ps nx ih =>
    cases rows with
    | nil =>
      simp only [Iter.Scan] at h
      simp [Iter.allRows, ih h]
    | cons r rs =>
      simp only [Iter.Scan, Prod.mk.injEq, Option.some.injEq] at h
      obtain ⟨h1, h2⟩ := h
      subst h1; subst h2; simp [Iter.allRows]

/-- The loop of `scan` in closed form: with `k` the number of rows still
admitted by the cap (all of them without a cap), the loop appends the first `k`
rows the iterator yields and leaves the iterator after as many calls of `Scan`
as it made. -/
theorem scanLoop_eq (pageSize : Int) (it : Iter) (users : List user)
    (hlt : pageSize > 0 → (users.length : Int) < pageSize) :
    scanLoop pageSize it users =
      if pageSize > 0 then
        (users ++ it.allRows.take (pageSize.toNat - users.length),
          it.advance (min (pageSize.toNat - users.length) (it.allRows.length + 1)))
      else (users ++ it.allRows, it.advance (it.allRows.length + 1)) := by
  generalize hn : it.size = n
  induction n using Nat.strong_induction_on generalizing it users with
  | _ n ih =>
    rw [scanLoop]
    split
    · next it' hs =>
      obtain ⟨h1, h2, h3, h4⟩ := Iter.Scan_none it it' hs
      have hk : 0 < pageSize → min (pageSize.toNat - users.length) 1 = 1 := by
        intro hp; have := hlt hp; omega
      by_cases hp : pageSize > 0
      · simp [hp, h1, hk hp, Iter.advance, hs]
      · simp [hp, h1, Iter.advance, hs]
    · next u it' hs =>
      have hrows := Iter.Scan_some it it' u hs
      have hsz := Iter.Scan_size_lt it u it' hs
      by_cases hp : pageSize > 0
      · have hl := hlt hp
        by_cases hc : ((users ++ [u]).length : Int) ≥ pageSize
        · have hk : pageSize.toNat - users.length = 1 := by
            simp only [List.length_append, List.length_singleton, Nat.cast_add, Nat.cast_one] at hc
            omega
          dsimp only
          rw [if_pos (And.intro hp hc)]
          simp [hp, hrows, hk, Iter.advance, hs]
        · have hl' : pageSize > 0 → ((users ++ [u]).length : Int) < pageSize := by
            intro _; omega
          have hk : pageSize.toNat - users.length
              = (pageSize.toNat - (users ++ [u]).length) + 1 := by
            simp only [List.length_append, List.length_singleton, Nat.cast_add, Nat.cast_one] at hc ⊢
            omega
          dsimp only
          rw [if_neg (fun h => hc h.2)]
          rw [ih it'.size (hn ▸ hsz) it' (users ++ [u]) hl' rfl]
          simp only [hp, if_true, hrows, hk, List.take_succ_cons, List.length_cons,
            Nat.add_min_add_right, Iter.advance, hs, List.append_assoc, List.singleton_append]
      · dsimp only
        rw [if_neg (fun h => hp h.1)]
        rw [ih it'.size (hn ▸ hsz) it' (users ++ [u]) (fun h => absurd h hp) rfl]
        simp [hp, hrows, Iter.advance, hs]

/-- Closed form of `scan`: the rows are the first `pageSize` rows the iterator
yields (all of them when `pageSize` is not positive), and token and error are
read from the iterator after the calls of `Scan` the loop made. -/
theorem scan_eq {σ : Type} (sess : Session σ) (s : σ) (table : String) (pageSize : Int)
    (pageState : Option Bytes) :
    scan sess s table pageSize pageState =
      (let it := (sess.QueryIter s (scanQuery table pageSize pageState)).2
       let k := if pageSize > 0 then min pageSize.toNat (it.allRows.length + 1)
                else it.allRows.length + 1
       ((if pageSize > 0 then it.allRows.take pageSize.toNat else it.allRows,
          (it.advance k).PageState, (it.advance k).Close),
        (sess.QueryIter s (scanQuery table pageSize pageState)).1)) := by
  unfold scan
  simp only []
  rw [scanLoop_eq pageSize _ [] (by intro h; simpa using h)]
  by_cases hp : pageSize > 0 <;> simp [hp]

/-- Scanning past the last row leaves an iterator without paging state. -/
theorem Iter.advance_past_end (it : Iter) :
    (it.advance (it.allRows.length + 1)).PageState = none := by
  generalize hn : it.allRows.length = n
  induction n generalizing it with
  | zero =>
    simp only [Iter.advance]
    cases hS : it.Scan with
    | mk o it' =>
      cases o with
      | none => exact (Iter.Scan_none it it' hS).2.1
      | some u =>
        have := Iter.Scan_some it it' u hS
        rw [this] at hn; simp at hn
  | succ n ih =>
    rw [Iter.advance]
    cases hS : it.Scan with
    | mk o it' =>
      cases o with
      | none =>
        have := (Iter.Scan_none it it' hS).1
        rw [this] at hn; simp at hn
      | some u =>
        have := Iter.Scan_some it it' u hS
        rw [this] at hn
        simp only [List.length_cons, Nat.add_right_cancel_iff] at hn
        exact ih it' hn

/-! ## The page-size cap (C1) -/

/-- C1: for a page-size cap `n > 0`, any continuation token and any rows the
driver's iterator yields, `scan` returns at most `n` records, namely the first
`min n (number of rows yielded)` in the order yielded; and when the iterator
yields 12 rows, `scan(table, 5, nil)` returns exactly 5 records. -/
theorem scan_page_cap {σ : Type} (sess : Session σ) (s : σ) (table : String) (n : Int)
    (token : Option Bytes) (hn : 0 < n) :
    let rows := scanRows sess s table n token
    let users := (scan sess s table n token).1.1
    (users.length : Int) ≤ n ∧
    users.length = min n.toNat rows.length ∧
    users = rows.take (min n.toNat rows.length) ∧
    ((scanRows sess s table 5 none).length = 12 →
      (scan sess s table 5 none).1.1.length = 5) := by
  have hu : ∀ (m : Int) (tok : Option Bytes), 0 < m →
      (scan sess s table m tok).1.1 = (scanRows sess s table m tok).take m.toNat := by
    intro m tok hm
    rw [scan_eq]
    simp [hm, scanRows]
  intro rows users
  have husers : users = rows.take n.toNat := hu n token hn
  refine ⟨?_, ?_, ?_, ?_⟩
  · rw [husers, List.length_take]
    have : (min n.toNat rows.length : Int) ≤ n.toNat := by exact_mod_cast Nat.min_le_left _ _
    have h2 : (n.toNat : Int) = n := Int.toNat_of_nonneg hn.le
    omega
  · rw [husers, List.length_take]
  · rw [husers, List.take_eq_take]
    simp
  · intro h12
    rw [hu 5 none (by decide), List.length_take, h12]
    decide

/-- Witness for C1: over the twelve seeded rows served in fetches of ten,
`scan("users", 5, nil)` returns the first five of them. -/
theorem scan_page_cap_witness :
    (0 : Int) < 5 ∧
    (scan pagedSession seededUsers "users" 5 none).1.1 = seededUsers.take 5 ∧
    (scan pagedSession seededUsers "users" 5 none).1.1.length = 5 := by
  have h := scan_page_cap pagedSession seededUsers "users" 5 none (by decide)
  have hrows : scanRows pagedSession seededUsers "users" 5 none = seededUsers := by decide
  refine ⟨by decide, ?_, ?_⟩
  · have h3 := h.2.2.1
    rw [hrows] at h3
    rw [h3]; decide
  · exact h.2.2.2 (by rw [hrows]; decide)

/-! ## The unbounded scan (C6) -/

/-- C6: with page-size cap 0 and a nil token, `scan` asks the driver for the
whole table with the session's own fetch size, returns every row the iterator
yields, in the order yielded and each once, and returns an empty token; when
the iterator yields 12 rows it returns all 12. -/
theorem scan_unbounded {σ : Type} (sess : Session σ) (s : σ) (table : String) :
    let r := (scan sess s table 0 none).1
    scanQuery table 0 none = Query.new "SELECT first_name, last_name, age FROM users" [] ∧
    r.1 = scanRows sess s table 0 none ∧
    tokenEmpty r.2.1 = true ∧
    ((scanRows sess s table 0 none).length = 12 → r.1.length = 12) := by
  intro r
  have hr : r = ((scanRows sess s table 0 none), none,
      (((sess.QueryIter s (scanQuery table 0 none)).2.advance
        ((scanRows sess s table 0 none).length + 1)).Close)) := by
    show (scan sess s table 0 none).1 = _
    rw [scan_eq]
    simp only [scanRows, gt_iff_lt, lt_self_iff_false, if_false]
    rw [Iter.advance_past_end]
  refine ⟨rfl, ?_, ?_, ?_⟩
  · rw [hr]
  · rw [hr]; rfl
  · intro h; rw [hr]; exact h

/-! ## The table argument (C10) -/

/-- C10: `scan` does not depend on its table argument: for two table names and
the same cap, token and session state it builds the same query, whose
statement reads the fixed table `users`, and returns the same records, token,
error and state. -/
theorem scan_ignores_table {σ : Type} (sess : Session σ) (s : σ) (table₁ table₂ : String)
    (pageSize : Int) (pageState : Option Bytes) :
    scanQuery table₁ pageSize pageState = scanQuery table₂ pageSize pageState ∧
    (scanQuery table₁ pageSize pageState).stmt
      = "SELECT first_name, last_name, age FROM users" ∧
    scan sess s table₁ pageSize pageState = scan sess s table₂ pageSize pageState := by
  refine ⟨rfl, ?_, rfl⟩
  unfold scanQuery
  by_cases hp : pageSize > 0 <;> cases pageState <;>
    simp [hp, Query.new, Query.PageSize, Query.PageState]

/-! ## Continuation tokens (C3, C5) -/

/-- C3, the code at the twelve seeded rows: `scan("users", 1, nil)` returns the
first row and the paging state of the ten-row fetch it stopped in, which marks
position 10; `scan("users", 5, token)` then returns rows 11 and 12 only, not
the five rows 2 to 6 that follow the first.  Over the first eight seeded rows
the token of `scan("users", 1, nil)` is nil, and `scan("users", 5, nil)`
returns the first row again. -/
theorem scan_resume_skips_fetch_page :
    (scan pagedSession seededUsers "users" 1 none).1
      = ([⟨"bill", "smith", 20⟩], some [10], none) ∧
    (scan pagedSession seededUsers "users" 5 (some [10])).1
      = ([⟨"george", "smith", 30⟩, ⟨"allie", "smith", 31⟩], none, none) ∧
    (scan pagedSession seededUsers "users" 5 (some [10])).1.1
      ≠ (seededUsers.drop 1).take 5 ∧
    (scan pagedSession (seededUsers.take 8) "users" 1 none).1
      = ([⟨"bill", "smith", 20⟩], none, none) ∧
    (⟨"bill", "smith", 20⟩ : user)
      ∈ (scan pagedSession (seededUsers.take 8) "users" 5 none).1.1 := by
  refine ⟨?_, ?_, ?_, ?_, ?_⟩ <;> rw [scan_eq] <;> decide

/-- C5, the code at cap 5: over the first eight seeded rows `scan` returns five
records and an empty token although three rows remain; over the twelve seeded
rows the token is not empty, and it marks position 10, the end of the ten-row
fetch, not position 5 where the records returned end. -/
theorem scan_token_follows_fetch_page :
    (scan pagedSession (seededUsers.take 8) "users" 5 none).1.1
      = (seededUsers.take 8).take 5 ∧
    tokenEmpty (scan pagedSession (seededUsers.take 8) "users" 5 none).1.2.1 = true ∧
    ((seededUsers.take 8).drop 5).length = 3 ∧
    (scan pagedSession seededUsers "users" 5 none).1.1 = seededUsers.take 5 ∧
    (scan pagedSession seededUsers "users" 5 none).1.2.1 = some (encodeOffset 10) := by
  refine ⟨?_, ?_, ?_, ?_, ?_⟩ <;> first | decide | (rw [scan_eq]; decide)

/-! ## The readiness probe (C2) -/

/-- While every attempt fails and `iter < timeout`, the loop of
`waitForConnection` is still running after any number of passes: nothing in
its body moves `iter`. -/
theorem waitForConnectionLoop_runs_on (Atoi : AtoiFn)
    (CreateSession : ClusterConfig → Nat → Option GoError) (host port : String)
    (timeout : Int) (hfail : ∀ c k, (CreateSession c k).isSome = true)
    (fuel : Nat) (st : WaitState) (hlt : st.iter < timeout) :
    waitForConnectionLoop Atoi CreateSession host port timeout fuel st = none := by
  induction fuel generalizing st with
  | zero => rfl
  | succ fuel ih =>
    rw [waitForConnectionLoop, if_pos hlt]
    have h := hfail (waitCluster Atoi host port) st.attempts
    dsimp only
    cases hc : CreateSession (waitCluster Atoi host port) st.attempts with
    | none => rw [hc] at h; simp at h
    | some e => exact ih _ hlt

/-- C2, the code with a timeout `T > 0` and a host every connection attempt to
which fails: `waitForConnection` has not returned after any number of passes of
its loop, so it never returns the timeout error. -/
theorem waitForConnection_never_returns (Atoi : AtoiFn)
    (CreateSession : ClusterConfig → Nat → Option GoError) (host port : String)
    (timeout : Int) (hT : 0 < timeout)
    (hfail : ∀ c k, (CreateSession c k).isSome = true) :
    ∀ fuel, waitForConnection Atoi CreateSession host port timeout fuel = none := by
  intro fuel
  unfold waitForConnection
  rw [waitForConnectionLoop_runs_on Atoi CreateSession host port timeout hfail fuel ⟨0, 0⟩ hT]

/-- Witness for C2: the default timeout 30 and a host that refuses every
connection. -/
theorem waitForConnection_never_returns_witness :
    (0 : Int) < 30 ∧
    (∀ (c : ClusterConfig) (k : Nat),
      ((fun _ _ => some ⟨"connection refused", 4⟩ : ClusterConfig → Nat → Option GoError) c
        k).isSome = true) ∧
    ∀ fuel, waitForConnection digitsAtoi (fun _ _ => some ⟨"connection refused", 4⟩)
      "127.0.0.1" "9042" 30 fuel = none :=
  ⟨by decide, fun _ _ => rfl,
    waitForConnection_never_returns digitsAtoi (fun _ _ => some ⟨"connection refused", 4⟩)
      "127.0.0.1" "9042" 30 (by decide) (fun _ _ => rfl)⟩

/-- What `waitForConnection` does return: with a timeout that is not positive
it makes no attempt and returns the timeout error; with a positive timeout it
returns only after a successful attempt, and then without error. -/
theorem waitForConnection_returns (Atoi : AtoiFn)
    (CreateSession : ClusterConfig → Nat → Option GoError) (host port : String)
    (timeout : Int) :
    (timeout ≤ 0 → ∀ fuel,
      waitForConnection Atoi CreateSession host port timeout (fuel + 1)
        = some (some timeoutError, 0)) ∧
    (0 < timeout → ∀ fuel err k,
      waitForConnection Atoi CreateSession host port timeout fuel = some (err, k) →
        err = none ∧ 0 < k ∧ CreateSession (waitCluster Atoi host port) (k - 1) = none) := by
  constructor
  · intro h fuel
    have hn : ¬ ((0 : Int) < timeout) := by omega
    simp [waitForConnection, waitForConnectionLoop, hn, h]
  · intro hT fuel err k
    have key : ∀ (fuel : Nat) (st st' : WaitState), st.iter = 0 →
        waitForConnectionLoop Atoi CreateSession host port timeout fuel st = some st' →
        st'.iter = 0 ∧ 0 < st'.attempts ∧
          CreateSession (waitCluster Atoi host port) (st'.attempts - 1) = none := by
      intro fuel
      induction fuel with
      | zero => intro st st' _ h; simp [waitForConnectionLoop] at h
      | succ fuel ih =>
        intro st st' h0 h
        rw [waitForConnectionLoop, if_pos (by omega)] at h
        dsimp only at h
        cases hc : CreateSession (waitCluster Atoi host port) st.attempts with
        | none =>
          rw [hc] at h
          simp only [Option.some.injEq] at h
          subst h
          simp [h0, hc]
        | some e =>
          simp only [hc] at h
          exact ih { st with attempts := st.attempts + 1 } st' h0 h
    intro h
    unfold waitForConnection at h
    cases hl : waitForConnectionLoop Atoi CreateSession host port timeout fuel ⟨0, 0⟩ with
    | none => rw [hl] at h; simp at h
    | some st' =>
      rw [hl] at h
      obtain ⟨h1, h2, h3⟩ := key fuel ⟨0, 0⟩ st' rfl hl
      have hn : ¬ (st'.iter ≥ timeout) := by omega
      simp only [hn, if_false, Option.some.injEq, Prod.mk.injEq] at h
      obtain ⟨he, hk⟩ := h
      subst he; subst hk
      exact ⟨rfl, h2, h3⟩

/-! ## Orchestration (C4) -/

/-- C4: whatever the outcome of each step, once `main` has called
`startCassandraDocker` it calls `tearDown` exactly once, as the last thing it
does, and a failed step keeps every later step except `tearDown` from running. -/
theorem main_tearDown_last (o : Outcomes) (h : Step.startCassandraDocker ∈ main o) :
    (∃ before, main o = before ++ [Step.tearDown] ∧ Step.tearDown ∉ before) ∧
    (o.startCassandraDocker ≠ none →
      Step.waitForConnection ∉ main o ∧ Step.setupDB ∉ main o ∧
        Step.performRecreation ∉ main o) ∧
    (o.waitForConnection ≠ none →
      Step.setupDB ∉ main o ∧ Step.performRecreation ∉ main o) ∧
    (o.setupDB ≠ none → Step.performRecreation ∉ main o) := by
  have key : main o = (main o).dropLast ++ [Step.tearDown] ∧
      Step.tearDown ∉ (main o).dropLast ∧
      (o.startCassandraDocker ≠ none →
        Step.waitForConnection ∉ main o ∧ Step.setupDB ∉ main o ∧
          Step.performRecreation ∉ main o) ∧
      (o.waitForConnection ≠ none →
        Step.setupDB ∉ main o ∧ Step.performRecreation ∉ main o) ∧
      (o.setupDB ≠ none → Step.performRecreation ∉ main o) := by
    obtain ⟨c, d, w, sd, pr, td⟩ := o
    cases c <;> cases d <;> cases w <;> cases sd <;> cases pr <;>
      first
      | (exfalso; simp [main] at h; done)
      | simp [main]
  exact ⟨⟨_, key.1, key.2.1⟩, key.2.2⟩

/-- Witness for C4: the readiness wait times out. -/
theorem main_tearDown_last_witness :
    Step.startCassandraDocker ∈ main ⟨none, none, some timeoutError, none, none, none⟩ ∧
    main ⟨none, none, some timeoutError, none, none, none⟩
      = [.getConfig, .getPort, .startCassandraDocker, .waitForConnection,
         .Printf "Error waiting for connection: %v\n" timeoutError, .tearDown] ∧
    Step.setupDB ∉ main ⟨none, none, some timeoutError, none, none, none⟩ := by
  have h := main_tearDown_last ⟨none, none, some timeoutError, none, none, none⟩ (by decide)
  exact ⟨by decide, by decide, (h.2.2.1 (by decide)).1⟩

/-! ## Errors of the reproduction sequence (C7) -/

/-- Seeding a list of names in two parts: the second part is seeded only when
the first went through without error. -/
theorem seed_append {σ : Type} (sess : Session σ) (rnd : Nat → Int) (l₁ l₂ : List String)
    (i : Nat) (s : σ) :
    seed sess rnd (l₁ ++ l₂) i s =
      match seed sess rnd l₁ i s with
      | (some err, s') => (some err, s')
      | (none, s') => seed sess rnd l₂ (i + l₁.length) s' := by
  induction l₁ generalizing i s with
  | nil => simp [seed]
  | cons name rest ih =>
    simp only [List.cons_append, seed, List.length_cons]
    cases h : sess.QueryExec s (insertQuery name (rnd i)) with
    | mk s' err =>
      cases err with
      | some e => simp
      | none =>
        have h2 : i + 1 + rest.length = i + (rest.length + 1) := by omega
        have h3 := ih (i + 1) s'
        rw [h2] at h3
        exact h3

/-- C7: `performRecreation` returns unchanged the error of the first seeding
insert that fails, of the first unbounded scan and of the single-record scan.
When these succeed the result is decided by the final scan (cap 5, token of
the single-record scan) alone: its error is swallowed, with result nil, if and
only if its message is exactly `java.lang.NullPointerException`, and every
other error of it is returned unchanged. -/
theorem performRecreation_errors {σ : Type} (sess : Session σ) (rnd : Nat → Int) (s : σ) :
    let res := (performRecreation sess rnd s).1
    let r0 := seed sess rnd names 0 s
    let r1 := scan sess r0.2 "users" 0 none
    let r2 := scan sess r1.2 "users" 1 none
    let r3 := scan sess r2.2 "users" 0 none
    let r4 := scan sess r3.2 "users" 5 r2.1.2.1
    (∀ (done : List String) (name : String) (rest : List String) (e : GoError),
      names = done ++ name :: rest →
      (seed sess rnd done 0 s).1 = none →
      (sess.QueryExec (seed sess rnd done 0 s).2 (insertQuery name (rnd done.length))).2
        = some e →
      res = some e) ∧
    (r0.1 = none → ∀ e, r1.1.2.2 = some e → res = some e) ∧
    (r0.1 = none → r1.1.2.2 = none → ∀ e, r2.1.2.2 = some e → res = some e) ∧
    (r0.1 = none → r1.1.2.2 = none → r2.1.2.2 = none →
      (∀ e, r4.1.2.2 = some e →
        ((res = none ↔ e.Error = "java.lang.NullPointerException") ∧
         (e.Error ≠ "java.lang.NullPointerException" → res = some e))) ∧
      (r4.1.2.2 = none → res = none)) := by
  intro res r0 r1 r2 r3 r4
  have hseed : ∀ e, r0.1 = some e → res = some e := by
    intro e h
    show (performRecreation sess rnd s).1 = some e
    unfold performRecreation
    rcases hr : seed sess rnd names 0 s with ⟨e0, s0⟩
    have : e0 = some e := by
      have h' : (seed sess rnd names 0 s).1 = some e := h
      rw [hr] at h'; exact h'
    subst this
    rfl
  refine ⟨?_, ?_, ?_, ?_⟩
  · intro done name rest e hnames hdone hins
    apply hseed
    show (seed sess rnd names 0 s).1 = some e
    rw [hnames, seed_append]
    rcases h1 : seed sess rnd done 0 s with ⟨e1, s1⟩
    rw [h1] at hdone hins
    simp only at hdone hins
    subst hdone
    simp only [seed, Nat.zero_add]
    rcases h2 : sess.QueryExec s1 (insertQuery name (rnd done.length)) with ⟨s2, e2⟩
    rw [h2] at hins
    simp only at hins
    subst hins
    rfl
  · intro h0 e h1
    show (performRecreation sess rnd s).1 = some e
    unfold performRecreation
    rcases hr0 : seed sess rnd names 0 s with ⟨e0, s0⟩
    have he0 : e0 = none := by
      have h' : (seed sess rnd names 0 s).1 = none := h0
      rw [hr0] at h'; exact h'
    subst he0
    have h1' : (scan sess s0 "users" 0 none).1.2.2 = some e := by
      have : r1 = scan sess s0 "users" 0 none := by
        show scan sess (seed sess rnd names 0 s).2 "users" 0 none = _
        rw [hr0]
      rw [← this]; exact h1
    rcases hr1 : scan sess s0 "users" 0 none with ⟨⟨u1, n1, e1⟩, s1⟩
    rw [hr1] at h1'
    simp only at h1'
    subst h1'
    simp only [hr1]
  · intro h0 h1 e h2
    show (performRecreation sess rnd s).1 = some e
    unfold performRecreation
    rcases hr0 : seed sess rnd names 0 s with ⟨e0, s0⟩
    have he0 : e0 = none := by
      have h' : (seed sess rnd names 0 s).1 = none := h0
      rw [hr0] at h'; exact h'
    subst he0
    have hr1' : r1 = scan sess s0 "users" 0 none := by
      show scan sess (seed sess rnd names 0 s).2 "users" 0 none = _
      rw [hr0]
    rcases hr1 : scan sess s0 "users" 0 none with ⟨⟨u1, n1, e1⟩, s1⟩
    have he1 : e1 = none := by
      have h' : r1.1.2.2 = none := h1
      rw [hr1', hr1] at h'; exact h'
    subst he1
    have hr2' : r2 = scan sess s1 "users" 1 none := by
      show scan sess r1.2 "users" 1 none = _
      rw [hr1', hr1]
    rcases hr2 : scan sess s1 "users" 1 none with ⟨⟨u2, n2, e2⟩, s2⟩
    have he2 : e2 = some e := by
      have h' : r2.1.2.2 = some e := h2
      rw [hr2', hr2] at h'; exact h'
    subst he2
    simp only [hr1, hr2]
  · intro h0 h1 h2
    have hres : res = match r4.1.2.2 with
        | some err => if err.Error = "java.lang.NullPointerException" then none else some err
        | none => none := by
      show (performRecreation sess rnd s).1 = _
      unfold performRecreation
      rcases hr0 : seed sess rnd names 0 s with ⟨e0, s0⟩
      have he0 : e0 = none := by
        have h' : (seed sess rnd names 0 s).1 = none := h0
        rw [hr0] at h'; exact h'
      subst he0
      have hr1' : r1 = scan sess s0 "users" 0 none := by
        show scan sess (seed sess rnd names 0 s).2 "users" 0 none = _
        rw [hr0]
      rcases hr1 : scan sess s0 "users" 0 none with ⟨⟨u1, n1, e1⟩, s1⟩
      have he1 : e1 = none := by
        have h' : r1.1.2.2 = none := h1
        rw [hr1', hr1] at h'; exact h'
      subst he1
      have hr2' : r2 = scan sess s1 "users" 1 none := by
        show scan sess r1.2 "users" 1 none = _
        rw [hr1', hr1]
      rcases hr2 : scan sess s1 "users" 1 none with ⟨⟨u2, n2, e2⟩, s2⟩
      have he2 : e2 = none := by
        have h' : r2.1.2.2 = none := h2
        rw [hr2', hr2] at h'; exact h'
      subst he2
      have hr3' : r3 = scan sess s2 "users" 0 none := by
        show scan sess r2.2 "users" 0 none = _
        rw [hr2', hr2]
      rcases hr3 : scan sess s2 "users" 0 none with ⟨x3, s3⟩
      have hr4' : r4 = scan sess s3 "users" 5 n2 := by
        show scan sess r3.2 "users" 5 r2.1.2.1 = _
        rw [hr3', hr3, hr2', hr2]
      rw [hr4']
      rcases hr4 : scan sess s3 "users" 5 n2 with ⟨⟨u4, n4, e4⟩, s4⟩
      cases e4 with
      | none => simp only [hr1, hr2, hr3, hr4]
      | some err =>
        simp only [hr1, hr2, hr3, hr4]
        by_cases hm : err.Error = "java.lang.NullPointerException" <;> simp [hm]
    constructor
    · intro e he
      rw [hres, he]
      by_cases hm : e.Error = "java.lang.NullPointerException" <;> simp [hm]
    · intro he
      rw [hres, he]

/-- The final scan fails with the defect's error: `performRecreation` returns
nil.  It fails with another error: that error is returned.  The second
unbounded scan fails: its error is dropped. -/
theorem performRecreation_scripted :
    (performRecreation (scriptedSession 3 nullPointerError) (fun i => (i : Int)) ([], 0)).1
      = none ∧
    (performRecreation (scriptedSession 3 timeoutError) (fun i => (i : Int)) ([], 0)).1
      = some timeoutError ∧
    (performRecreation (scriptedSession 1 nullPointerError) (fun i => (i : Int)) ([], 0)).1
      = some nullPointerError ∧
    (performRecreation (scriptedSession 2 timeoutError) (fun i => (i : Int)) ([], 0)).1
      = none := by
  refine ⟨?_, ?_, ?_, ?_⟩ <;> (unfold performRecreation; simp only [scan_eq]; decide)

/-! ## Container teardown (C8) -/

/-- C8: `destroyDockerContainer` sends a stop with grace period 30 and then a
forced remove with volumes, in this order and whatever the stop returned; the
error it returns is the one the remove returned, so a failed stop followed by a
successful remove gives no error. -/
theorem destroyDockerContainer_stop_then_remove {δ : Type} (client : DockerClient δ) (d : δ)
    (containerID : String) :
    let opts : RemoveContainerOptions :=
      { ID := containerID, RemoveVolumes := true, Force := true }
    let stopped := client.StopContainer d containerID 30
    let removed := client.RemoveContainer stopped.1 opts
    let r := destroyDockerContainer client d containerID
    r.1.1 = [DockerCall.StopContainer containerID 30, DockerCall.RemoveContainer opts] ∧
    r.1.2 = removed.2 ∧
    r.2 = removed.1 ∧
    (∀ e, stopped.2 = some e → removed.2 = none → r.1.2 = none) := by
  intro opts stopped removed r
  refine ⟨rfl, rfl, rfl, ?_⟩
  intro e _ h
  exact h

/-- A container that exists and does not run: the stop fails, the remove is
sent all the same, the container is gone and no error is returned. -/
theorem destroyDockerContainer_already_stopped :
    (simpleDocker.StopContainer (["c1"], []) "c1" 30).2
      = some ⟨"Container not running: c1", 1⟩ ∧
    destroyDockerContainer simpleDocker (["c1"], []) "c1"
      = (([DockerCall.StopContainer "c1" 30,
            DockerCall.RemoveContainer { ID := "c1", RemoveVolumes := true, Force := true }],
          none), ([], [])) := by
  constructor <;> decide

/-! ## Connection construction (C9) -/

/-- C9: `getCluster` attaches transport-security options exactly when `Ca`,
`Cert` and `Key` are all non-empty; attached, they hold these three paths with
host-name verification off.  The consistency level is always quorum, and the
construction goes through whatever `Atoi` returns: the port is the value it
returned, 0 for a port string that is not a number, and the error that came
with it is dropped. -/
theorem getCluster_spec (Atoi : AtoiFn) (cc : CassandraConnection) (keyspace : String) :
    let c := cc.getCluster Atoi keyspace
    (c.SslOpts.isSome = true ↔ (cc.Ca ≠ "" ∧ cc.Cert ≠ "" ∧ cc.Key ≠ "")) ∧
    (∀ o, c.SslOpts = some o →
      o = { CaPath := cc.Ca, CertPath := cc.Cert, KeyPath := cc.Key,
            EnableHostVerification := false }) ∧
    c.Consistency = ConsistencyLevel.Quorum ∧
    c.Port = (Atoi cc.Port).1 ∧
    c.Hosts = cc.Hosts ∧ c.Keyspace = keyspace ∧ c.Timeout = 60000 ∧
    c.Authenticator = some { Username := cc.User, Password := cc.Password } ∧
    ((digitsAtoi cc.Port).2 ≠ none → (cc.getCluster digitsAtoi keyspace).Port = 0) := by
  intro c
  have hP : ∀ A : AtoiFn, (cc.getCluster A keyspace).Port = (A cc.Port).1 := by
    intro A; unfold CassandraConnection.getCluster; dsimp only; split <;> rfl
  have hS : c.SslOpts = if cc.Ca ≠ "" ∧ cc.Cert ≠ "" ∧ cc.Key ≠ "" then
      some { CaPath := cc.Ca, CertPath := cc.Cert, KeyPath := cc.Key,
             EnableHostVerification := false } else none := by
    show (cc.getCluster Atoi keyspace).SslOpts = _
    unfold CassandraConnection.getCluster; dsimp only; split <;> rfl
  refine ⟨?_, ?_, ?_, hP Atoi, ?_, ?_, ?_, ?_, ?_⟩
  · rw [hS]; split <;> simp_all
  · intro o ho
    rw [hS] at ho
    split at ho
    · exact (Option.some.inj ho).symm
    · exact absurd ho (by simp)
  · show (cc.getCluster Atoi keyspace).Consistency = _
    unfold CassandraConnection.getCluster; dsimp only; split <;> rfl
  · show (cc.getCluster Atoi keyspace).Hosts = _
    unfold CassandraConnection.getCluster; dsimp only; split <;> rfl
  · show (cc.getCluster Atoi keyspace).Keyspace = _
    unfold CassandraConnection.getCluster; dsimp only; split <;> rfl
  · show (cc.getCluster Atoi keyspace).Timeout = _
    unfold CassandraConnection.getCluster; dsimp only; split <;> rfl
  · show (cc.getCluster Atoi keyspace).Authenticator = _
    unfold CassandraConnection.getCluster; dsimp only; split <;> rfl
  · intro hp
    rw [hP digitsAtoi]
    unfold digitsAtoi at hp ⊢
    split
    · rename_i h; rw [if_pos h] at hp; exact absurd rfl hp
    · rfl

/-- A connection with all three paths gets transport security; one without a
key gets none; a port that is not a number gives port 0. -/
theorem getCluster_examples :
    ((⟨"u", "p", ["127.0.0.1"], "9042", "db", "ks", "ca.pem", "cert.pem", "key.pem", 0⟩ :
        CassandraConnection).getCluster digitsAtoi "ks").SslOpts
      = some ⟨"ca.pem", "cert.pem", "key.pem", false⟩ ∧
    ((⟨"u", "p", ["127.0.0.1"], "9042", "db", "ks", "ca.pem", "cert.pem", "", 0⟩ :
        CassandraConnection).getCluster digitsAtoi "ks").SslOpts = none ∧
    ((⟨"u", "p", ["127.0.0.1"], "no port", "db", "ks", "", "", "", 0⟩ :
        CassandraConnection).getCluster digitsAtoi "ks").Port = 0 ∧
    ((⟨"u", "p", ["127.0.0.1"], "9042", "db", "ks", "", "", "", 0⟩ :
        CassandraConnection).getCluster digitsAtoi "ks").Port = 9042 := by
  refine ⟨?_, ?_, ?_, ?_⟩ <;> decide

end Recreation
